import Mathlib

/-!
Verification development for the ClipSense worker pipeline.

The definitions below are shallow embeddings of the Python source under
`src/worker/`: `timeline.py` (timeline writing, reading, source validation),
`conform.py` (conform entry), `ai_content_selector.py` (analysis cache and
batch selection), `background_processor.py` (job lifecycle and job-side batch
processing), `simple_beat_detector.py` (music-start detection) and
`visual_analyzer.py` (best-moment selection).  Machine-level hashing is
embedded as an executable SHA-256 over byte lists; JSON serialization is
embedded for the value forms the timeline writer emits (`json.dump` with
`indent=2, sort_keys=True`).
-/

namespace SHA256

/-- 2^32, the word modulus of SHA-256. -/
def M32 : Nat := 4294967296

/-- Addition modulo 2^32. -/
def add32 (a b : Nat) : Nat := (a + b) % M32

/-- Right rotation of a 32-bit word. -/
def rotr (n x : Nat) : Nat := ((x >>> n) ||| ((x % (2 ^ n)) <<< (32 - n))) % M32

/-- Choice function: for each bit, pick from f where e is set, else from g. -/
def chv (e f g : Nat) : Nat := g ^^^ (e &&& (f ^^^ g))

/-- Majority function over three 32-bit words. -/
def maj (a b c : Nat) : Nat := (a &&& b) ^^^ (a &&& c) ^^^ (b &&& c)

def bigSigma0 (x : Nat) : Nat := rotr 2 x ^^^ rotr 13 x ^^^ rotr 22 x

def bigSigma1 (x : Nat) : Nat := rotr 6 x ^^^ rotr 11 x ^^^ rotr 25 x

def smallSigma0 (x : Nat) : Nat := rotr 7 x ^^^ rotr 18 x ^^^ (x >>> 3)

def smallSigma1 (x : Nat) : Nat := rotr 17 x ^^^ rotr 19 x ^^^ (x >>> 10)

/-- The 64 SHA-256 round constants of FIPS 180-4, written in decimal. -/
def kconst : List Nat :=
  [1116352408, 1899447441, 3049323471, 3921009573, 961987163, 1508970993,
   2453635748, 2870763221, 3624381080, 310598401, 607225278, 1426881987,
   1925078388, 2162078206, 2614888103, 3248222580, 3835390401, 4022224774,
   264347078, 604807628, 770255983, 1249150122, 1555081692, 1996064986,
   2554220882, 2821834349, 2952996808, 3210313671, 3336571891, 3584528711,
   113926993, 338241895, 666307205, 773529912, 1294757372, 1396182291,
   1695183700, 1986661051, 2177026350, 2456956037, 2730485921, 2820302411,
   3259730800, 3345764771, 3516065817, 3600352804, 4094571909, 275423344,
   430227734, 506948616, 659060556, 883997877, 958139571, 1322822218,
   1537002063, 1747873779, 1955562222, 2024104815, 2227730452, 2361852424,
   2428436474, 2756734187, 3204031479, 3329325298]

/-- Working state: the eight 32-bit hash registers. -/
structure Hv where
  a : Nat
  b : Nat
  c : Nat
  d : Nat
  e : Nat
  f : Nat
  g : Nat
  h : Nat
deriving Repr, DecidableEq

/-- The SHA-256 initial hash value of FIPS 180-4, written in decimal. -/
def hInit : Hv :=
  ⟨1779033703, 3144134277, 1013904242, 2773480762,
   1359893119, 2600822924, 528734635, 1541459225⟩

/-- Big-endian 8-byte encoding of a natural number. -/
def toBE8 (n : Nat) : List Nat :=
  [56, 48, 40, 32, 24, 16, 8, 0].map (fun s => (n >>> s) % 256)

/-- SHA-256 message padding: append 0x80, zeros, and the 64-bit bit length. -/
def pad (msg : List Nat) : List Nat :=
  let L := msg.length
  let z := (119 - L % 64) % 64
  msg ++ (128 :: List.replicate z 0) ++ toBE8 (8 * L)

/-- Group bytes into big-endian 32-bit words. -/
def bytesToWords : List Nat → List Nat
  | a :: b :: c :: d :: rest => (((a * 256 + b) * 256 + c) * 256 + d) :: bytesToWords rest
  | _ => []

/-- Extend the 16-word block (kept reversed, most recent first) by n words. -/
def extendSchedule (rev : List Nat) : Nat → List Nat
  | 0 => rev
  | n + 1 =>
      let w := (smallSigma1 (rev.getD 1 0) + rev.getD 6 0 +
                smallSigma0 (rev.getD 14 0) + rev.getD 15 0) % M32
      extendSchedule (w :: rev) n

/-- One compression round with round constant k and schedule word w. -/
def round (st : Hv) (kw : Nat × Nat) : Hv :=
  let t1 := (st.h + bigSigma1 st.e + chv st.e st.f st.g + kw.1 + kw.2) % M32
  let t2 := (bigSigma0 st.a + maj st.a st.b st.c) % M32
  ⟨(t1 + t2) % M32, st.a, st.b, st.c, (st.d + t1) % M32, st.e, st.f, st.g⟩

/-- Compress one 16-word block into the running hash state. -/
def compressBlock (block : List Nat) (st : Hv) : Hv :=
  let sched := (extendSchedule block.reverse 48).reverse
  let fin := (kconst.zip sched).foldl round st
  ⟨add32 st.a fin.a, add32 st.b fin.b, add32 st.c fin.c, add32 st.d fin.d,
   add32 st.e fin.e, add32 st.f fin.f, add32 st.g fin.g, add32 st.h fin.h⟩

/-- Process n blocks of 16 words each into the running hash state. -/
def processBlocksFuel : Nat → List Nat → Hv → Hv
  | 0, _, st => st
  | n + 1, words, st =>
      processBlocksFuel n (words.drop 16) (compressBlock (words.take 16) st)

/-- Process the padded message, 16 words per block. -/
def processBlocks (words : List Nat) (st : Hv) : Hv :=
  processBlocksFuel (words.length / 16) words st

/-- One lowercase hexadecimal digit. -/
def hexDigit (n : Nat) : Char :=
  if n < 10 then Char.ofNat (48 + n) else Char.ofNat (87 + n)

/-- Eight hex characters of a 32-bit word, most significant first. -/
def wordHex (w : Nat) : List Char :=
  [28, 24, 20, 16, 12, 8, 4, 0].map (fun s => hexDigit ((w >>> s) % 16))

/-- SHA-256 digest of a byte list, as a lowercase hex string. -/
def sha256hex (msg : List Nat) : String :=
  let fin := processBlocks (bytesToWords (pad msg)) hInit
  String.mk (([fin.a, fin.b, fin.c, fin.d, fin.e, fin.f, fin.g, fin.h].map wordHex).flatten)

end SHA256

/-- The bytes of an ASCII string (the code point of each character). -/
def strBytes (s : String) : List Nat := s.data.map Char.toNat

/-- `hashlib.sha256(s.encode()).hexdigest()` for an ASCII string s. -/
def sha256hexOfString (s : String) : String := SHA256.sha256hex (strBytes s)

example : sha256hexOfString "abc" =
    "ba7816bf8f01cfea414140de5dae2223b00361a396177a9cb410ff61f20015ad" := by decide

example : sha256hexOfString "" =
    "e3b0c44298fc1c149afbf4c8996fb92427ae41e4649b934ca495991b7852b855" := by decide

/-!
JSON values and the serialization `json.dump(obj, f, indent=2, sort_keys=True)`
performs on them.  Numeric leaves are restricted to integers: that is the
numeric form appearing in the timelines settled concretely below (Python
serializes an int with no decimal point, exactly as `toString` on `Int`).
-/

inductive Json where
  | jnull : Json
  | jbool : Bool → Json
  | jint : Int → Json
  | jstr : String → Json
  | jarr : List Json → Json
  | jobj : List (String × Json) → Json
deriving Repr

/-- Escape one character the way the Python json encoder does (ensure_ascii). -/
def jsonEscapeChar (c : Char) : List Char :=
  let n := c.toNat
  if n = 34 then [Char.ofNat 92, Char.ofNat 34]
  else if n = 92 then [Char.ofNat 92, Char.ofNat 92]
  else if n = 8 then [Char.ofNat 92, Char.ofNat 98]
  else if n = 9 then [Char.ofNat 92, Char.ofNat 116]
  else if n = 10 then [Char.ofNat 92, Char.ofNat 110]
  else if n = 12 then [Char.ofNat 92, Char.ofNat 102]
  else if n = 13 then [Char.ofNat 92, Char.ofNat 114]
  else if n < 32 ∨ 127 < n then
    [Char.ofNat 92, Char.ofNat 117,
     SHA256.hexDigit ((n >>> 12) % 16), SHA256.hexDigit ((n >>> 8) % 16),
     SHA256.hexDigit ((n >>> 4) % 16), SHA256.hexDigit (n % 16)]
  else [c]

/-- Serialize a JSON string with surrounding quotes. -/
def jsonQuote (s : String) : String :=
  String.mk (Char.ofNat 34 :: (s.data.map jsonEscapeChar).flatten ++ [Char.ofNat 34])

/-- Indentation of 2 spaces per depth level. -/
def jsonIndent (d : Nat) : String := String.mk (List.replicate (2 * d) (Char.ofNat 32))

/-- Lexicographic comparison of character lists by code point, as Python
compares strings. -/
def charListLe : List Char → List Char → Bool
  | [], _ => true
  | _ :: _, [] => false
  | a :: as, b :: bs =>
      if a.toNat < b.toNat then true
      else if b.toNat < a.toNat then false
      else charListLe as bs

/-- Lexicographic string comparison by code point. -/
def strLe (a b : String) : Bool := charListLe a.data b.data

/-- Insert a field into a key-sorted field list. -/
def insertField (x : String × Json) : List (String × Json) → List (String × Json)
  | [] => [x]
  | y :: ys => if strLe x.1 y.1 then x :: y :: ys else y :: insertField x ys

/-- Sort object fields by key, the effect of sort_keys=True (keys are unique
in every object produced by the embedded writer, as they are in Python dicts,
so stability of the sort is irrelevant). -/
def sortFields (l : List (String × Json)) : List (String × Json) :=
  l.foldr insertField []

mutual

/-- Sort the field lists of every object in a value by key; the serializer
below is applied to the result, which models sort_keys=True. -/
def jsortKeys : Json → Json
  | .jarr l => .jarr (jsortArr l)
  | .jobj l => .jobj (sortFields (jsortObj l))
  | v => v

def jsortArr : List Json → List Json
  | [] => []
  | x :: xs => jsortKeys x :: jsortArr xs

def jsortObj : List (String × Json) → List (String × Json)
  | [] => []
  | x :: xs => (x.1, jsortKeys x.2) :: jsortObj xs

end

mutual

/-- Serialize a value at depth d, as the Python json encoder with indent=2 does
on a value whose objects are already key-sorted. -/
def jsonSer (d : Nat) : Json → String
  | .jnull => "null"
  | .jbool true => "true"
  | .jbool false => "false"
  | .jint n => toString n
  | .jstr s => jsonQuote s
  | .jarr [] => "[]"
  | .jarr (x :: xs) =>
      "[\n" ++ jsonSerItems (d + 1) (x :: xs) ++ "\n" ++ jsonIndent d ++ "]"
  | .jobj [] => "\x7b\x7d"
  | .jobj (x :: xs) =>
      "\x7b\n" ++ jsonSerFields (d + 1) (x :: xs) ++ "\n" ++ jsonIndent d ++ "\x7d"

/-- Serialize array items, one per line, comma separated. -/
def jsonSerItems (d : Nat) : List Json → String
  | [] => ""
  | [x] => jsonIndent d ++ jsonSer d x
  | x :: y :: xs => jsonIndent d ++ jsonSer d x ++ ",\n" ++ jsonSerItems d (y :: xs)

/-- Serialize object fields, one per line, comma separated, key then ": " then value. -/
def jsonSerFields (d : Nat) : List (String × Json) → String
  | [] => ""
  | [(k, v)] => jsonIndent d ++ jsonQuote k ++ ": " ++ jsonSer d v
  | (k, v) :: y :: xs =>
      jsonIndent d ++ jsonQuote k ++ ": " ++ jsonSer d v ++ ",\n" ++ jsonSerFields d (y :: xs)

end

/-- The full dump: json.dump(value, f, indent=2, sort_keys=True). -/
def jsonDump (v : Json) : String := jsonSer 0 (jsortKeys v)

example : jsonDump (.jobj [("b", .jint 1), ("a", .jarr [.jint 2, .jstr "x"])]) =
    "\x7b\n  \"a\": [\n    2,\n    \"x\"\n  ],\n  \"b\": 1\n\x7d" := by decide

example : jsonDump (.jobj [("b", .jint 1), ("a", .jarr [.jint 2, .jstr "x"]),
    ("c", .jobj []), ("d", .jarr []), ("e", .jobj [("z", .jbool true), ("y", .jnull)])]) =
    "\x7b\n  \"a\": [\n    2,\n    \"x\"\n  ],\n  \"b\": 1,\n  \"c\": \x7b\x7d,\n  \"d\": [],\n  \"e\": \x7b\n    \"y\": null,\n    \"z\": true\n  \x7d\n\x7d" := by decide

/-!
Timeline writer, reader, and source validation: src/worker/timeline.py.

Python dicts are embedded as association lists in insertion order, dict
assignment as updateKey (an existing key keeps its position, a new key is
appended), which is exactly the enumeration order Python guarantees.  The
parts of the OS touched by the writer are a FileSys view: existence, the
string the f-string formatting gives for st_mtime, st_size and abspath.
The embedding covers clip dicts whose src value is a string, the domain the
writer is ever called on (anything else raises inside the Python writer).
-/

/-- Lookup a key in an object field list (Python dict lookup). -/
def jFind (l : List (String × Json)) (k : String) : Option Json :=
  (l.find? (fun p => p.1 == k)).map (fun p => p.2)

/-- Membership test for a key (the Python `in` operator on a dict). -/
def jHasKey (l : List (String × Json)) (k : String) : Bool :=
  l.any (fun p => p.1 == k)

/-- Python dict assignment d[k] = v: overwrite in place or append. -/
def updateKey (l : List (String × Json)) (k : String) (v : Json) : List (String × Json) :=
  if l.any (fun p => p.1 == k) then l.map (fun p => if p.1 == k then (k, v) else p)
  else l ++ [(k, v)]

/-- Remove a key from an object field list. -/
def removeKey (l : List (String × Json)) (k : String) : List (String × Json) :=
  l.filter (fun p => p.1 != k)

/-- The file-system facts the timeline code reads: existence, the string
interpolation of st_mtime, st_size in bytes, and path absolutization. -/
structure FileSys where
  fexists : String → Bool
  mtimeStr : String → String
  fsize : String → Nat
  abspath : String → String

/-- Embedding of _calculate_file_hash: sha256 over "path:mtime:size". -/
def calculate_file_hash (fs : FileSys) (path : String) : String :=
  sha256hexOfString (path ++ ":" ++ fs.mtimeStr path ++ ":" ++ toString (fs.fsize path))

/-- Ambient facts of one write_timeline call: the file system, the string
datetime.now().isoformat() produced, and the st_mtime the file system gives
the timeline file when the first json.dump writes it. -/
structure WriteEnv where
  fs : FileSys
  createdAt : String
  wmtime : String

/-- Result of write_timeline: the final on-disk bytes, the timeline dict as
the function leaves it, the hash it stored, and the absolute output path. -/
structure WriteResult where
  content : String
  obj : List (String × Json)
  timeline_hash : String
  path : String

/-- String value of the src key of a clip dict. -/
def clipSrc (c : Json) : String :=
  match c with
  | .jobj l => match jFind l "src" with
    | some (.jstr s) => s
    | _ => ""
  | _ => ""

/-- Embedding of write_timeline (src/worker/timeline.py lines 16-95). -/
def write_timeline (env : WriteEnv) (clips : List Json) (target_seconds : Int)
    (music_path output_path : String) (fps : Int)
    (used_scene_detect used_beat_snapping : Bool)
    (bar_markers : Option (List Json)) (tempo : Option Json)
    (time_signature : Option String) : WriteResult :=
  let fs := env.fs
  let clips_absolute := clips.map (fun c =>
    match c with
    | .jobj l => Json.jobj (updateKey l "src" (.jstr (fs.abspath (clipSrc c))))
    | c => c)
  let music_absolute := fs.abspath music_path
  let base : List (String × Json) :=
    [("clips", .jarr clips_absolute),
     ("fps", .jint fps),
     ("target_seconds", .jint target_seconds),
     ("music", .jstr music_absolute),
     ("used_scene_detect", .jbool used_scene_detect),
     ("used_beat_snapping", .jbool used_beat_snapping),
     ("created_at", .jstr env.createdAt),
     ("version", .jstr "1.0")]
  let withBar := match bar_markers with
    | some bm => updateKey base "bar_markers" (.jarr bm)
    | none => base
  let withTempo := match tempo with
    | some t => updateKey withBar "tempo" t
    | none => withBar
  let withSig := match time_signature with
    | some sg => updateKey withTempo "time_signature" (.jstr sg)
    | none => withTempo
  let sh0 := clips_absolute.foldl (fun acc c =>
    if fs.fexists (clipSrc c) then
      updateKey acc (clipSrc c) (.jstr (calculate_file_hash fs (clipSrc c)))
    else acc) []
  let sh1 := if fs.fexists music_absolute then
      updateKey sh0 music_absolute (.jstr (calculate_file_hash fs music_absolute))
    else sh0
  let fields := updateKey withSig "source_hashes" (.jobj sh1)
  let timeline_path := fs.abspath output_path
  let s1 := jsonDump (.jobj fields)
  let timeline_hash := sha256hexOfString
    (timeline_path ++ ":" ++ env.wmtime ++ ":" ++ toString (strBytes s1).length)
  let fields2 := updateKey fields "timeline_hash" (.jstr timeline_hash)
  ⟨jsonDump (.jobj fields2), fields2, timeline_hash, timeline_path⟩

/-- Validation of the clips list of read_timeline: the first error raised,
if any (lines 126-134 of timeline.py). -/
def checkClips : List Json → Option String
  | [] => none
  | c :: rest =>
    match c with
    | .jobj l =>
      if ¬ (jHasKey l "src" && jHasKey l "in" && jHasKey l "out") then
        some "Clip missing required fields: src, in, out"
      else
        match jFind l "in", jFind l "out" with
        | some (.jint i), some (.jint o) =>
            if o ≤ i then some "Clip invalid timecode: in >= out" else checkClips rest
        | _, _ => some "Clip timecodes must be numeric"
    | _ => some "Clip timecodes must be numeric"

/-- Embedding of read_timeline on the parsed JSON value (lines 98-136):
json.load of a file the writer produced yields exactly the written value,
so the reader is modeled on the value itself. -/
def read_timeline (t : Json) : Except String Json :=
  match t with
  | .jobj fields =>
    match ["clips", "fps", "target_seconds", "music", "timeline_hash"].find?
        (fun f => ¬ jHasKey fields f) with
    | some f => .error ("Timeline missing required field: " ++ f)
    | none =>
      match jFind fields "clips" with
      | some (.jarr cs) =>
        match checkClips cs with
        | some e => .error e
        | none => .ok t
      | _ => .error "Timeline clips value is not a list"
  | _ => .error "Timeline is not an object"

/-- Embedding of validate_timeline_sources (lines 146-164): every recorded
source must exist and its current hash must equal the recorded one. -/
def validate_timeline_sources (fs : FileSys) (t : Json) : Bool :=
  let sh := match t with
    | .jobj fields =>
      match jFind fields "source_hashes" with
      | some (.jobj l) => l
      | _ => []
    | _ => []
  sh.all (fun p =>
    fs.fexists p.1 &&
      (match p.2 with
       | .jstr h => calculate_file_hash fs p.1 == h
       | _ => false))

/-- Embedding of the validation prefix of ConformProcessor.conform_from_timeline
(src/worker/conform.py lines 43-47): read, validate, and only then render.
A returned unit value means control reached the rendering stage. -/
def conform_from_timeline (fs : FileSys) (t : Json) : Except String Unit :=
  match read_timeline t with
  | .error e => .error e
  | .ok tl =>
    if validate_timeline_sources fs tl then .ok ()
    else .error "Timeline source files have changed or are missing"

/-- Integer value of a key of a timeline object, read back for re-writing. -/
def jGetIntK (t : Json) (k : String) : Int :=
  match t with
  | .jobj l => match jFind l k with
    | some (.jint n) => n
    | _ => 0
  | _ => 0

/-- String value of a key of a timeline object. -/
def jGetStrK (t : Json) (k : String) : String :=
  match t with
  | .jobj l => match jFind l k with
    | some (.jstr s) => s
    | _ => ""
  | _ => ""

/-- Boolean value of a key of a timeline object. -/
def jGetBoolK (t : Json) (k : String) : Bool :=
  match t with
  | .jobj l => match jFind l k with
    | some (.jbool b) => b
    | _ => false
  | _ => false

/-- Array value of a key of a timeline object. -/
def jGetArrK (t : Json) (k : String) : List Json :=
  match t with
  | .jobj l => match jFind l k with
    | some (.jarr a) => a
    | _ => []
  | _ => []

/-- Option-valued lookup on a timeline object. -/
def jFindK (t : Json) (k : String) : Option Json :=
  match t with
  | .jobj l => jFind l k
  | _ => none

/-- Re-write the object obtained from read_timeline through write_timeline,
passing each writer argument the corresponding field of the object. -/
def rewrite_from_timeline (env : WriteEnv) (t : Json) (output_path : String) : WriteResult :=
  write_timeline env (jGetArrK t "clips") (jGetIntK t "target_seconds")
    (jGetStrK t "music") output_path (jGetIntK t "fps")
    (jGetBoolK t "used_scene_detect") (jGetBoolK t "used_beat_snapping")
    (match jFindK t "bar_markers" with
     | some (.jarr l) => some l
     | _ => none)
    (jFindK t "tempo")
    (match jFindK t "time_signature" with
     | some (.jstr s) => some s
     | _ => none)

/-!
Concrete instances used to settle the timeline claims.  fsNone is a file
system on which no source file exists and every given path is already
absolute and normalized, so abspath is the identity.
-/

def fsNone : FileSys := ⟨fun _ => false, fun _ => "0", fun _ => 0, fun p => p⟩

/-- First write: the file system stamps the first dump with st_mtime 1000.0. -/
def envA : WriteEnv := ⟨fsNone, "2024-01-01T00:00:00", "1000.0"⟩

/-- Second write at a later wall-clock instant (st_mtime 2000.0) with the
created_at string held equal to isolate the round-trip comparison. -/
def envB : WriteEnv := ⟨fsNone, "2024-01-01T00:00:00", "2000.0"⟩

set_option maxRecDepth 4000

def wrA : WriteResult := write_timeline envA [] 10 "/m.wav" "/tl.json" 25 false false none none none

def wrB : WriteResult := rewrite_from_timeline envB (.jobj wrA.obj) "/tl.json"

example : wrA.timeline_hash =
    "8ba9334e8e9bd2ada465f4291ea32e2a7ed5ded9e5ec81e07af91e95821fd184" := by decide

example : sha256hexOfString (jsonDump (.jobj (removeKey wrA.obj "timeline_hash"))) =
    "3a2c1c378c57119cc7b88c056a88900953b547a8ae07e573226e4194c7af4fb0" := by decide

example : wrB.timeline_hash =
    "2ec42c868f1e889f7012600f293409f4815e1e6cf31a48b920cabeb18e6f3f20" := by decide

/-!
AI content selector: src/worker/ai_content_selector.py.

Analyzer result records carry the fields of the pydantic models they embed,
with rationals for Python floats.  The awaited sub-analyses (object detector,
emotion analyzer, story arc creator, style engine, vision description) are
external effects; the outcomes one call awaits are bundled as an oracle record, taken
after the optional vision enrichment (which is a no-op in the default
configuration without vision credentials, the configuration embedded here).
-/

structure WeddingObjectDetectionResult where
  clip_path : String
  duration : ℚ
  objects_detected : List (String × Int)
  confidence_scores : List (String × ℚ)
  key_moments : List ℚ
  analysis_duration : ℚ
  scene_classification : String
deriving DecidableEq

structure EmotionAnalysisResult where
  clip_path : String
  duration : ℚ
  emotions : List (String × ℚ)
  emotional_moments : List (ℚ × String × ℚ)
  overall_sentiment : String
  excitement_level : ℚ
  analysis_duration : ℚ
deriving DecidableEq

structure StoryArcResult where
  clip_path : String
  scene_classification : String
  story_importance : ℚ
  narrative_position : String
  emotional_tone : String
  recommended_duration : ℚ
  story_notes : String
deriving DecidableEq

structure StylePresetResult where
  clip_path : String
  applied_style : String
  color_grade_applied : String
  transition_style_applied : String
  recommended_duration : ℚ
  style_notes : String
deriving DecidableEq

structure AIContentSelectionResult where
  clip_path : String
  object_analysis : WeddingObjectDetectionResult
  emotion_analysis : EmotionAnalysisResult
  story_arc : StoryArcResult
  style_preset : StylePresetResult
  final_score : ℚ
  selection_reason : String
  description : String
deriving DecidableEq

/-- Python dict .get(key, default) on an association list. -/
def dget {α : Type} (l : List (String × α)) (k : String) (d : α) : α :=
  match l.find? (fun p => p.1 == k) with
  | some p => p.2
  | none => d

/-- Python dict assignment for an arbitrary value type. -/
def dictSet {α : Type} (l : List (String × α)) (k : String) (v : α) : List (String × α) :=
  if l.any (fun p => p.1 == k) then l.map (fun p => if p.1 == k then (k, v) else p)
  else l ++ [(k, v)]

/-- Embedding of AIContentSelector._calculate_object_score. -/
def calculate_object_score (oa : WeddingObjectDetectionResult) : ℚ :=
  let objects := oa.objects_detected
  let key_moments : Int := oa.key_moments.length
  let score : ℚ := 0
  let score := score + (if 0 < dget objects "wedding_rings" 0 then (0.4 : ℚ) else 0)
  let score := score + (if 0 < dget objects "wedding_cake" 0 then (0.3 : ℚ) else 0)
  let score := score + (if 0 < dget objects "ceremony_moments" 0 then (0.5 : ℚ) else 0)
  let score := score + (if 0 < dget objects "dancing" 0 then (0.2 : ℚ) else 0)
  let score := score + (if 2 < dget objects "people" 0 then (0.1 : ℚ) else 0)
  let score := score +
    (if 3 < key_moments then (0.2 : ℚ) else if 1 < key_moments then (0.1 : ℚ) else 0)
  min score 1

/-- Embedding of AIContentSelector._calculate_emotion_score. -/
def calculate_emotion_score (ea : EmotionAnalysisResult) : ℚ :=
  let emotions := ea.emotions
  let score : ℚ := 0
  let score := score + (if (0.6 : ℚ) < dget emotions "joy" 0 then (0.3 : ℚ) else 0)
  let score := score + (if (0.5 : ℚ) < dget emotions "love" 0 then (0.4 : ℚ) else 0)
  let score := score + (if (0.6 : ℚ) < dget emotions "celebration" 0 then (0.2 : ℚ) else 0)
  let score := score + (if (0.5 : ℚ) < dget emotions "tenderness" 0 then (0.3 : ℚ) else 0)
  let score := score +
    (if (0.7 : ℚ) < ea.excitement_level then (0.2 : ℚ)
     else if (0.4 : ℚ) < ea.excitement_level then (0.1 : ℚ) else 0)
  let score := score +
    (if ea.overall_sentiment == "positive" then (0.2 : ℚ)
     else if ea.overall_sentiment == "neutral" then (0.1 : ℚ) else 0)
  let score := score + (if 2 < ea.emotional_moments.length then (0.1 : ℚ) else 0)
  min score 1

/-- Embedding of AIContentSelector._calculate_story_score. -/
def calculate_story_score (sa : StoryArcResult) : ℚ :=
  let scene_scores : List (String × ℚ) :=
    [("ceremony", 0.9), ("intimate_moments", 0.8), ("preparation", 0.6),
     ("reception", 0.7), ("party", 0.5), ("scenic_moments", 0.4)]
  let tone_scores : List (String × ℚ) :=
    [("romantic", 0.9), ("intimate", 0.8), ("joyful", 0.7),
     ("dramatic", 0.6), ("celebratory", 0.5)]
  let position_scores : List (String × ℚ) :=
    [("climax", 0.9), ("rising_action", 0.8), ("opening", 0.6),
     ("falling_action", 0.7), ("resolution", 0.5)]
  let score := sa.story_importance * (0.4 : ℚ)
  let score := score + dget scene_scores sa.scene_classification (0.5 : ℚ) * (0.3 : ℚ)
  let score := score + dget tone_scores sa.emotional_tone (0.5 : ℚ) * (0.2 : ℚ)
  let score := score + dget position_scores sa.narrative_position (0.5 : ℚ) * (0.1 : ℚ)
  min score 1

/-- Embedding of AIContentSelector._calculate_style_score. -/
def calculate_style_score (sa : StoryArcResult) (sp : StylePresetResult) : ℚ :=
  let tone_style_matches : List (String × List String) :=
    [("romantic", ["romantic", "cinematic"]), ("joyful", ["energetic", "documentary"]),
     ("dramatic", ["cinematic"]), ("intimate", ["romantic", "documentary"]),
     ("celebratory", ["energetic"])]
  let scene_style_matches : List (String × List String) :=
    [("ceremony", ["cinematic", "romantic"]), ("intimate_moments", ["romantic", "documentary"]),
     ("party", ["energetic", "documentary"]), ("preparation", ["documentary", "romantic"])]
  let score : ℚ := 0.5
  let score := score +
    (if (dget tone_style_matches sa.emotional_tone []).contains sp.applied_style
     then (0.3 : ℚ) else 0)
  let score := score +
    (if (dget scene_style_matches sa.scene_classification []).contains sp.applied_style
     then (0.2 : ℚ) else 0)
  min score 1

/-- Embedding of AIContentSelector._calculate_final_score. -/
def calculate_final_score (oa : WeddingObjectDetectionResult) (ea : EmotionAnalysisResult)
    (sa : StoryArcResult) (sp : StylePresetResult) : ℚ :=
  min (calculate_object_score oa * (0.3 : ℚ) + calculate_emotion_score ea * (0.25 : ℚ) +
       calculate_story_score sa * (0.25 : ℚ) + calculate_style_score sa sp * (0.2 : ℚ)) 1

/-- Embedding of AIContentSelector._calculate_final_score_fast. -/
def calculate_final_score_fast (oa : WeddingObjectDetectionResult)
    (sa : StoryArcResult) : ℚ :=
  let object_score := min ((oa.key_moments.length : ℚ) / 10) 1
  min (object_score * (0.5 : ℚ) + sa.story_importance * (0.3 : ℚ) + (0.5 : ℚ) * (0.2 : ℚ)) 1

/-- Embedding of AIContentSelector._generate_selection_reason. -/
def generate_selection_reason (oa : WeddingObjectDetectionResult)
    (ea : EmotionAnalysisResult) (sa : StoryArcResult) (final_score : ℚ) : String :=
  let objects := oa.objects_detected
  let emotions := ea.emotions
  let reasons : List String :=
    (if 2 ≤ dget objects "wedding_rings" 0 then ["features ring exchange"] else []) ++
    (if 2 ≤ dget objects "wedding_cake" 0 then ["includes cake cutting"] else []) ++
    (if 3 ≤ dget objects "ceremony_moments" 0 then ["shows ceremony moments"] else []) ++
    (if 2 ≤ dget objects "dancing" 0 then ["captures dancing"] else []) ++
    (if 5 ≤ dget objects "people" 0 then ["shows wedding party"] else []) ++
    (if (0.7 : ℚ) < dget emotions "joy" 0 then ["high joy and happiness"] else []) ++
    (if (0.6 : ℚ) < dget emotions "love" 0 then ["romantic and loving"] else []) ++
    (if (0.7 : ℚ) < dget emotions "celebration" 0 then ["celebratory atmosphere"] else []) ++
    (if (0.7 : ℚ) < sa.story_importance then ["high story importance"] else []) ++
    (if sa.emotional_tone == "romantic" then ["romantic tone"] else []) ++
    (if sa.emotional_tone == "intimate" then ["intimate moment"] else []) ++
    (if sa.narrative_position == "climax" then ["climactic moment"] else []) ++
    (if 3 < oa.key_moments.length then
       [toString oa.key_moments.length ++ " key moments"] else []) ++
    (if (0.8 : ℚ) < final_score then ["excellent overall quality"]
     else if (0.6 : ℚ) < final_score then ["good quality"] else ["decent quality"])
  let reasons := if reasons.isEmpty then
      reasons ++ (if 0 < dget objects "people" 0 then ["shows people"] else []) ++
        (if (0.3 : ℚ) < sa.story_importance then ["story relevance"] else []) ++
        ["meets basic criteria"]
    else reasons
  String.intercalate ", " reasons

/-- The sub-analysis outcomes one analyze_clip call awaits. -/
structure SelectorOracle where
  object_analysis : WeddingObjectDetectionResult
  emotion_analysis : EmotionAnalysisResult
  story_arc : StoryArcResult
  style_preset_result : StylePresetResult
  description : String
deriving DecidableEq

/-- The sub-analysis outcomes one analyze_clip_fast call awaits (the fast path
skips the emotion analyzer). -/
structure FastOracle where
  object_analysis : WeddingObjectDetectionResult
  story_arc : StoryArcResult
  style_preset_result : StylePresetResult
  description : String
deriving DecidableEq

/-- The per-process analysis cache of AIContentSelector. -/
def AnalysisCache : Type := List (String × AIContentSelectionResult)

/-- Cache key of analyze_clip (line 87). -/
def cache_key (video_path story_style style_preset : String) : String :=
  video_path ++ "_" ++ story_style ++ "_" ++ style_preset ++ "_v2"

/-- Cache key of analyze_clip_fast (line 167). -/
def cache_key_fast (video_path story_style style_preset : String) : String :=
  video_path ++ "_" ++ story_style ++ "_" ++ style_preset ++ "_fast_v2"

/-- Embedding of AIContentSelector.analyze_clip: the returned result and the
cache as left after the call. -/
def analyze_clip (cache : AnalysisCache) (video_path story_style style_preset : String)
    (o : SelectorOracle) : AIContentSelectionResult × AnalysisCache :=
  let key := cache_key video_path story_style style_preset
  let final_score := calculate_final_score o.object_analysis o.emotion_analysis
    o.story_arc o.style_preset_result
  let selection_reason := generate_selection_reason o.object_analysis o.emotion_analysis
    o.story_arc final_score
  let result : AIContentSelectionResult :=
    ⟨video_path, o.object_analysis, o.emotion_analysis, o.story_arc,
     o.style_preset_result, final_score, selection_reason, o.description⟩
  (result, dictSet cache key result)

/-- Embedding of AIContentSelector.analyze_clip_fast. -/
def analyze_clip_fast (cache : AnalysisCache) (video_path story_style style_preset : String)
    (o : FastOracle) : AIContentSelectionResult × AnalysisCache :=
  let key := cache_key_fast video_path story_style style_preset
  let emotion_analysis : EmotionAnalysisResult :=
    ⟨video_path, o.object_analysis.duration, [("neutral", 0.5)],
     [(0, "neutral", 0.5)], "neutral", 0.3, 0.1⟩
  let final_score := calculate_final_score_fast o.object_analysis o.story_arc
  let selection_reason := generate_selection_reason o.object_analysis emotion_analysis
    o.story_arc final_score
  let result : AIContentSelectionResult :=
    ⟨video_path, o.object_analysis, emotion_analysis, o.story_arc,
     o.style_preset_result, final_score, selection_reason, o.description⟩
  (result, dictSet cache key result)

/-!
Batch selection: AIContentSelector._select_best_clips_batch and the
background-job executor BackgroundProcessor._process_clips_batch.  Each clip
is represented by the final score its analysis yields (selection inspects
only final_score).  Loops are fueled; the fuel passed is the clip count,
which exceeds the number of batches, so the fuel-exhausted branch is never
reached.
-/

/-- Sorting with key final_score, reverse=True: descending by score.  The
elements here are the scores themselves, so tie order is irrelevant. -/
def sortScoresDesc (l : List ℚ) : List ℚ :=
  l.insertionSort (fun a b => b ≤ a)

/-- The early-exit test of _select_best_clips_batch lines 407-409, stated on
the list of analyzed scores. -/
def earlyExitCond (target_count : Nat) (analyzed : List ℚ) : Prop :=
  target_count * 2 ≤ analyzed.length ∧
    target_count ≤ (analyzed.filter (fun r => (0.6 : ℚ) < r)).length

instance (tc : Nat) (l : List ℚ) : Decidable (earlyExitCond tc l) :=
  inferInstanceAs (Decidable (And _ _))

/-- The batch loop of _select_best_clips_batch (lines 389-411): batches of 4,
accumulate, and after each batch break when the early-exit test passes. -/
def batchLoop (target_count : Nat) : Nat → List ℚ → List ℚ → List ℚ
  | 0, _, acc => acc
  | fuel + 1, remaining, acc =>
    match remaining with
    | [] => acc
    | r :: rs =>
      let batch := (r :: rs).take 4
      let acc2 := acc ++ batch
      if earlyExitCond target_count acc2 then acc2
      else batchLoop target_count fuel ((r :: rs).drop 4) acc2

/-- Embedding of _select_best_clips_batch: run the batch loop, sort the
analyzed results by score descending, return the top target_count. -/
def select_best_clips_batch (target_count : Nat) (scores : List ℚ) : List ℚ :=
  (sortScoresDesc (batchLoop target_count scores.length scores [])).take target_count

/-!
Background job registry: src/worker/background_processor.py.
-/

inductive ProcessingStatus where
  | pending
  | running
  | completed
  | failed
  | cancelled
deriving DecidableEq, Repr

/-- Embedding of the ProcessingJob dataclass, with each clip represented by
the final score its fast analysis yields and times as rationals. -/
structure ProcessingJob where
  job_id : String
  clips : List ℚ
  music_path : String
  target_duration : Int
  story_style : String
  style_preset : String
  status : ProcessingStatus
  progress : ℚ
  current_step : String
  results : Option (List ℚ)
  error : Option String
  created_at : ℚ
  started_at : Option ℚ
  completed_at : Option ℚ
deriving DecidableEq

/-- Embedding of BackgroundProcessor.create_job. -/
def create_job (clips : List ℚ) (music_path : String) (target_duration : Int)
    (story_style style_preset : String) (job_id : String) (now : ℚ) : ProcessingJob :=
  ⟨job_id, clips, music_path, target_duration, story_style, style_preset,
   .pending, 0, "Initializing...", none, none, now, none, none⟩

/-- Whether the cancellation flag, set before batch index m, is visible at the
check preceding batch index k. -/
def cancelHit : Option Nat → Nat → Bool
  | none, _ => false
  | some m, k => m ≤ k

/-- The batch loop of _process_clips_batch (lines 144-177): batches of 3, a
cancellation check before each batch, a progress assignment per batch, and a
batch whose gather raised is skipped (processed_count unchanged).  Returns the
progress values assigned in order, the accumulated results, and whether the
cancellation flag was observed. -/
def jobLoop : Nat → List ℚ → Nat → List Bool → Option Nat → Nat → Nat → List ℚ →
    List ℚ → List ℚ × List ℚ × Bool
  | 0, _, _, _, _, _, _, acc, progs => (progs, acc, false)
  | fuel + 1, remaining, n, fails, cancelAt, batchIdx, processed, acc, progs =>
    match remaining with
    | [] => (progs, acc, false)
    | r :: rs =>
      if cancelHit cancelAt batchIdx then (progs, acc, true)
      else
        let batch := (r :: rs).take 3
        let progs2 := progs ++ [(processed : ℚ) / (n : ℚ)]
        if fails.getD batchIdx false then
          jobLoop fuel ((r :: rs).drop 3) n fails cancelAt (batchIdx + 1) processed acc progs2
        else
          jobLoop fuel ((r :: rs).drop 3) n fails cancelAt (batchIdx + 1)
            (processed + batch.length) (acc ++ batch) progs2

/-- Selection at the end of _process_clips_batch (lines 180-185):
top min(len, max(5, target_duration // 3)) scores, descending. -/
def jobTopSelect (allRes : List ℚ) (target_duration : Int) : List ℚ :=
  (sortScoresDesc allRes).take
    (min (allRes.length : Int) (max 5 (Int.fdiv target_duration 3))).toNat

/-- Embedding of BackgroundProcessor.start_processing (lines 103-132) running
a job to its final state.  Arguments: the start and completion clock readings,
the per-batch failure flags, the batch index before which cancel_job was
called (if it was), and the point at which an exception escaped the batch
processing (if one did: pairs the number of progress assignments made with
the message).  Returns the final job and the progress values assigned over
the whole run, in order. -/
def start_processing (job : ProcessingJob) (tStart tEnd : ℚ) (fails : List Bool)
    (cancelAt : Option Nat) (fatalAfter : Option (Nat × String)) :
    ProcessingJob × List ℚ :=
  let job1 := { job with status := .running, started_at := some tStart,
                         current_step := "Starting AI analysis...", progress := 0 }
  let n := job1.clips.length
  let res := jobLoop n job1.clips n fails cancelAt 0 0 [] []
  let progs := res.1
  let allRes := res.2.1
  let cancelled := res.2.2
  match fatalAfter with
  | some (k, msg) =>
    let progsK := progs.take k
    ({ job1 with status := .failed, error := some msg, completed_at := some tEnd,
                 progress := progsK.getLastD 0 },
     0 :: 0 :: progsK)
  | none =>
    let job2 := { job1 with
      progress := progs.getLastD 0,
      status := if cancelled then .cancelled else .running,
      results := if allRes.isEmpty then job1.results
                 else some (jobTopSelect allRes job1.target_duration) }
    if cancelled then (job2, 0 :: 0 :: progs)
    else ({ job2 with status := .completed, completed_at := some tEnd,
                      progress := 1, current_step := "Completed!" },
          0 :: 0 :: progs ++ [1])

/-!
Music-start detection: SimpleBeatDetector._find_music_start
(src/worker/simple_beat_detector.py lines 152-188).  The RMS energy series
computed by librosa.feature.rms is the input; window i sits at time
i * hop_length / sr (librosa.frames_to_time).  An empty series makes np.max
raise, which the except branch turns into 0.0.
-/

/-- Maximum of a nonempty rational list, np.max style. -/
def listMax : List ℚ → ℚ
  | [] => 0
  | r :: rs => rs.foldl max r

/-- Embedding of _find_music_start over the RMS series. -/
def find_music_start (rms : List ℚ) (sr hop : Nat) : ℚ :=
  match rms with
  | [] => 0
  | _ :: _ =>
    let max_energy := listMax rms
    let threshold := max_energy * (0.1 : ℚ)
    match rms.findIdx? (fun r => threshold < r) with
    | some i => min (5 : ℚ) (max (0.1 : ℚ) ((i : ℚ) * (hop : ℚ) / (sr : ℚ)))
    | none => 0

/-!
Best-moment selection: VisualAnalyzer._find_best_moments and
find_best_moments_in_duration (src/worker/visual_analyzer.py lines 344-428).
-/

/-- Embedding of the MomentScore dataclass. -/
structure MomentScore where
  timestamp : ℚ
  face_score : ℚ
  motion_score : ℚ
  quality_score : ℚ
  combined_score : ℚ
deriving DecidableEq

/-- Sorting moments by combined score, reverse=True (stable descending; the
greedily selected set is permutation-invariant in what the claims state). -/
def sortMomentsDesc (l : List MomentScore) : List MomentScore :=
  l.insertionSort (fun a b => b.combined_score ≤ a.combined_score)

/-- The greedy spacing filter of _find_best_moments lines 358-367: walk the
score-sorted moments, keep one when no kept timestamp is within min_interval,
stop once max_moments are kept. -/
def greedyPick (min_interval : ℚ) (max_moments : Nat) :
    List MomentScore → List ℚ → List ℚ
  | [], acc => acc
  | m :: rest, acc =>
    let acc2 := if acc.any (fun e => |m.timestamp - e| < min_interval) then acc
                else acc ++ [m.timestamp]
    if max_moments ≤ acc2.length then acc2
    else greedyPick min_interval max_moments rest acc2

/-- Embedding of _find_best_moments: greedy pick over the descending sort,
then chronological order. -/
def find_best_moments (moments : List MomentScore) (duration : ℚ)
    (max_moments : Nat) : List ℚ :=
  match moments with
  | [] => []
  | _ :: _ =>
    (greedyPick (duration * (0.1 : ℚ)) max_moments (sortMomentsDesc moments) []).insertionSort
      (fun a b => a ≤ b)

/-- Embedding of the selection tail of find_best_moments_in_duration (lines
419-424): cap 5, then shift each timestamp by start_time. -/
def find_best_moments_in_duration (moments : List MomentScore)
    (start_time duration : ℚ) : List ℚ :=
  (find_best_moments moments duration 5).map (fun m => start_time + m)

/-!
Further concrete instances used by the claims below.
-/

/-- A timeline value whose single clip has a negative in-point. -/
def tlNeg : Json :=
  .jobj [("clips", .jarr [.jobj [("src", .jstr "/a.mp4"), ("in", .jint (-1)),
                                 ("out", .jint 2)]]),
         ("fps", .jint 25), ("target_seconds", .jint 10),
         ("music", .jstr "/m.wav"), ("timeline_hash", .jstr "x")]

def oaC : WeddingObjectDetectionResult :=
  ⟨"/v.mp4", 10, [("people", 3)], [("people", 0.8)], [1, 2], 0.5, "ceremony"⟩

def eaC : EmotionAnalysisResult :=
  ⟨"/v.mp4", 10, [("joy", 0.7)], [(1, "joy", 0.7)], "positive", 0.5, 0.2⟩

def saC : StoryArcResult := ⟨"/v.mp4", "ceremony", 0.8, "climax", "romantic", 5, "n"⟩

def spC : StylePresetResult := ⟨"/v.mp4", "romantic", "warm", "crossfade", 5, "n"⟩

def oC : SelectorOracle := ⟨oaC, eaC, saC, spC, "a clip"⟩

def oFC : FastOracle := ⟨oaC, saC, spC, "a clip"⟩

/-!
Claim theorems.
-/

/-- Claim C1.  The claim states that the stored timeline_hash equals the
SHA-256 of the canonical serialization with the timeline_hash field absent.
On the embedded writer this is false: the stored hash is the SHA-256 of the
metadata string path:mtime:size of the intermediate file, shown here on a
concrete write, for which the recomputed content hash differs from the
stored one. -/
theorem C1_timeline_hash_is_metadata_not_content_hash :
    wrA.timeline_hash ≠
      sha256hexOfString (jsonDump (.jobj (removeKey wrA.obj "timeline_hash"))) ∧
    wrA.timeline_hash =
      sha256hexOfString ("/tl.json" ++ ":" ++ "1000.0" ++ ":" ++
        toString (strBytes (jsonDump (.jobj (removeKey wrA.obj "timeline_hash")))).length) := by
  exact ⟨by decide, by decide⟩

/-- Claim C2.  The claim states that re-writing the object read back from an
emitted timeline produces bytes identical to the original except for the
created_at value.  On the embedded writer this is false: on a concrete
round trip whose created_at strings are held equal and whose sources are
unchanged, the bytes still differ, because the stored timeline_hash depends
on the st_mtime of the intermediate file; every field other than
timeline_hash is reproduced. -/
theorem C2_rewrite_changes_bytes_beyond_created_at :
    read_timeline (.jobj wrA.obj) = .ok (.jobj wrA.obj) ∧
    jGetStrK (.jobj wrB.obj) "created_at" = jGetStrK (.jobj wrA.obj) "created_at" ∧
    wrB.content ≠ wrA.content ∧
    jGetStrK (.jobj wrB.obj) "timeline_hash" ≠ jGetStrK (.jobj wrA.obj) "timeline_hash" ∧
    removeKey wrB.obj "timeline_hash" = removeKey wrA.obj "timeline_hash" := by
  exact ⟨rfl, rfl, by decide, by decide, rfl⟩

/-- Claim C3.  The claim states that the analysis cache never stores
object-detector output.  On the embedded selector this is false: on a
concrete call of analyze_clip and of analyze_clip_fast over an empty cache,
every entry the call leaves in the cache carries the output of the object
detector in its object_analysis field. -/
theorem C3_cache_stores_object_detector_output :
    ((analyze_clip [] "/v.mp4" "traditional" "romantic" oC).2.map
      (fun p => p.2.object_analysis)) = [oaC] ∧
    ((analyze_clip_fast [] "/v.mp4" "traditional" "romantic" oFC).2.map
      (fun p => p.2.object_analysis)) = [oaC] := by
  exact ⟨rfl, rfl⟩

/-- Claim C9.  The result of analyze_clip and analyze_clip_fast does not
depend on the prior cache contents, and the only cache effect of either
call is the insertion of the one result under its cache key. -/
theorem C9_analysis_independent_of_cache :
    ∀ (c1 c2 : AnalysisCache) (vp ss sp : String) (o : SelectorOracle) (f : FastOracle),
      (analyze_clip c1 vp ss sp o).1 = (analyze_clip c2 vp ss sp o).1 ∧
      (analyze_clip_fast c1 vp ss sp f).1 = (analyze_clip_fast c2 vp ss sp f).1 ∧
      (analyze_clip c1 vp ss sp o).2 =
        dictSet c1 (cache_key vp ss sp) (analyze_clip c1 vp ss sp o).1 ∧
      (analyze_clip_fast c1 vp ss sp f).2 =
        dictSet c1 (cache_key_fast vp ss sp) (analyze_clip_fast c1 vp ss sp f).1 := by
  intro c1 c2 vp ss sp o f
  exact ⟨rfl, rfl, rfl, rfl⟩

/-- Claim C10.  The reader validation only requires clip in and out values to
be numeric with in strictly below out, so a timeline whose clip has a
negative in-point and a positive out-point is accepted and returned. -/
theorem C10_read_timeline_accepts_negative_in_point :
    read_timeline tlNeg = .ok tlNeg ∧
    jFind [("src", .jstr "/a.mp4"), ("in", .jint (-1)), ("out", .jint 2)] "in" =
      some (.jint (-1)) ∧ (-1 : Int) < 0 ∧ (0 : Int) < 2 := by
  exact ⟨rfl, rfl, by decide, by decide⟩

/-- Claim C7, counterexample.  On silent audio (all RMS windows zero) no
window exceeds the threshold of 10 percent of peak RMS, and the detector
returns 0.0, which is below 0.1 s; the claim that the returned offset is
always at least 0.1 s is therefore false. -/
theorem C7_counterexample :
    find_music_start [0, 0] 22050 512 = 0 ∧
    ¬ ((0.1 : ℚ) ≤ find_music_start [0, 0] 22050 512) := by
  exact ⟨by with_unfolding_all decide, by with_unfolding_all decide⟩

/-- Claim C7, amended.  Whenever some RMS window exceeds 10 percent of the
peak RMS (the detection succeeds, returning the index of the first such
window), the music-start offset is the time of that first above-threshold
window clamped to the interval from 0.1 s to 5.0 s, hence at least 0.1 s;
on input with no above-threshold window the detector returns 0.0 instead. -/
theorem C7_music_start_first_window_clamped :
    ∀ (rms : List ℚ) (sr hop : Nat) (i : Nat),
      rms.findIdx? (fun r => listMax rms * (0.1 : ℚ) < r) = some i →
      find_music_start rms sr hop =
        min (5 : ℚ) (max (0.1 : ℚ) ((i : ℚ) * (hop : ℚ) / (sr : ℚ))) ∧
      (0.1 : ℚ) ≤ find_music_start rms sr hop ∧
      (∃ h : i < rms.length, listMax rms * (0.1 : ℚ) < rms.get ⟨i, h⟩) ∧
      (∀ j (hj : j < rms.length), j < i →
        ¬ (listMax rms * (0.1 : ℚ) < rms.get ⟨j, hj⟩)) := by
  intro rms sr hop i h
  obtain ⟨hlt, hp, hprev⟩ := List.findIdx?_eq_some_iff_getElem.mp h
  have heval : find_music_start rms sr hop =
      min (5 : ℚ) (max (0.1 : ℚ) ((i : ℚ) * (hop : ℚ) / (sr : ℚ))) := by
    cases rms with
    | nil => simp at h
    | cons r rs => simp only [find_music_start, h]
  refine ⟨heval, ?_, ⟨hlt, by simpa using hp⟩, ?_⟩
  · rw [heval]
    exact le_min (by norm_num) (le_max_left _ _)
  · intro j hj hji
    have := hprev j hji
    simpa using this

/-- Claim C6.  validate_timeline_sources is true exactly when every entry of
source_hashes names an existing file whose current path:mtime:size hash
equals the recorded string, and conform_from_timeline, having read a
timeline that fails this validation, returns the error before any rendering
is reached. -/
theorem C6_validate_sources_iff_and_conform_aborts :
    ∀ (fs : FileSys),
      (∀ (fields sh : List (String × Json)),
        jFind fields "source_hashes" = some (.jobj sh) →
        (validate_timeline_sources fs (.jobj fields) = true ↔
          ∀ p ∈ sh, fs.fexists p.1 = true ∧ p.2 = .jstr (calculate_file_hash fs p.1))) ∧
      (∀ (t tl : Json), read_timeline t = .ok tl →
        validate_timeline_sources fs tl = false →
        conform_from_timeline fs t =
          .error "Timeline source files have changed or are missing") := by
  intro fs
  constructor
  · intro fields sh hfind
    simp only [validate_timeline_sources, hfind, List.all_eq_true]
    constructor
    · intro hall p hp
      have h1 := hall p hp
      rw [Bool.and_eq_true] at h1
      obtain ⟨hfe, hm⟩ := h1
      refine ⟨hfe, ?_⟩
      cases hv : p.2 with
      | jstr s =>
        rw [hv] at hm
        have hs : calculate_file_hash fs p.1 = s := by simpa using hm
        rw [hs]
      | jnull => rw [hv] at hm; simp at hm
      | jbool b => rw [hv] at hm; simp at hm
      | jint n => rw [hv] at hm; simp at hm
      | jarr a => rw [hv] at hm; simp at hm
      | jobj o => rw [hv] at hm; simp at hm
    · intro hall p hp
      obtain ⟨hfe, hv⟩ := hall p hp
      rw [Bool.and_eq_true]
      refine ⟨hfe, ?_⟩
      rw [hv]
      simp
  · intro t tl hread hval
    simp [conform_from_timeline, hread, hval]

/-- Source-hash table of the concrete C6 timeline. -/
def shC6 : List (String × Json) := [("/x.mp4", .jstr "deadbeef")]

/-- A concrete well-formed timeline recording one source hash. -/
def tC6 : Json :=
  .jobj [("clips", .jarr []), ("fps", .jint 25), ("target_seconds", .jint 10),
         ("music", .jstr "/m.wav"), ("timeline_hash", .jstr "h"),
         ("source_hashes", .jobj shC6)]

/-- Witness for claim C6: on the file system with no files, the concrete
timeline reads back fine, fails source validation, and the conformer aborts
with the error. -/
theorem C6_witness :
    read_timeline tC6 = .ok tC6 ∧
    validate_timeline_sources fsNone tC6 = false ∧
    conform_from_timeline fsNone tC6 =
      .error "Timeline source files have changed or are missing" :=
  ⟨rfl, by decide,
   (C6_validate_sources_iff_and_conform_aborts fsNone).2 tC6 tC6 rfl (by decide)⟩

/-- Witness for claim C7: on an RMS series with an above-threshold window the
detection hypothesis holds at index 1 and the returned offset is at least
0.1 s. -/
theorem C7_witness :
    ([0, 1, 2] : List ℚ).findIdx? (fun r => listMax [0, 1, 2] * (0.1 : ℚ) < r) = some 1 ∧
    (0.1 : ℚ) ≤ find_music_start [0, 1, 2] 22050 512 :=
  ⟨by with_unfolding_all decide,
   (C7_music_start_first_window_clamped [0, 1, 2] 22050 512 1
     (by with_unfolding_all decide)).2.1⟩

/-- Spacing relation between two selected best moments. -/
def spaced (minI : ℚ) (a b : ℚ) : Prop := minI ≤ |a - b|

/-- The greedy pick never grows past max_moments once below it. -/
theorem greedyPick_length_le (minI : ℚ) (maxM : Nat) :
    ∀ (l : List MomentScore) (acc : List ℚ), acc.length < maxM →
      (greedyPick minI maxM l acc).length ≤ maxM := by
  intro l
  induction l with
  | nil => intro acc h; simpa [greedyPick] using Nat.le_of_lt h
  | cons m rest ih =>
    intro acc h
    simp only [greedyPick]
    by_cases hc : (acc.any fun e => |m.timestamp - e| < minI) = true
    · rw [if_pos hc, if_neg (by omega)]
      exact ih acc h
    · rw [if_neg hc]
      by_cases hs : maxM ≤ (acc ++ [m.timestamp]).length
      · rw [if_pos hs]
        simp only [List.length_append, List.length_singleton]
        omega
      · rw [if_neg hs]
        exact ih _ (by simp only [List.length_append, List.length_singleton] at hs ⊢; omega)

/-- Every list the greedy pick returns keeps kept moments pairwise at least
min_interval apart, provided the accumulator already does. -/
theorem greedyPick_pairwise (minI : ℚ) (maxM : Nat) :
    ∀ (l : List MomentScore) (acc : List ℚ), acc.Pairwise (spaced minI) →
      (greedyPick minI maxM l acc).Pairwise (spaced minI) := by
  intro l
  induction l with
  | nil => intro acc h; simpa [greedyPick] using h
  | cons m rest ih =>
    intro acc h
    have happ : (acc ++ [m.timestamp]).Pairwise (spaced minI) →
        (if maxM ≤ (acc ++ [m.timestamp]).length then acc ++ [m.timestamp]
         else greedyPick minI maxM rest (acc ++ [m.timestamp])).Pairwise (spaced minI) := by
      intro h2
      by_cases hs : maxM ≤ (acc ++ [m.timestamp]).length
      · rw [if_pos hs]; exact h2
      · rw [if_neg hs]; exact ih _ h2
    simp only [greedyPick]
    by_cases hc : (acc.any fun e => |m.timestamp - e| < minI) = true
    · rw [if_pos hc]
      by_cases hs : maxM ≤ acc.length
      · rw [if_pos hs]; exact h
      · rw [if_neg hs]; exact ih _ h
    · rw [if_neg hc]
      refine happ ?_
      rw [List.pairwise_append]
      refine ⟨h, List.pairwise_singleton _ _, ?_⟩
      intro a ha b hb
      simp only [List.mem_singleton] at hb
      subst hb
      have hall : ∀ x ∈ acc, ¬ (|m.timestamp - x| < minI) := by
        simpa using hc
      have : minI ≤ |m.timestamp - a| := le_of_not_lt (hall a ha)
      simpa [spaced, abs_sub_comm] using this

/-- Properties of one find_best_moments call: chronological order, length cap,
pairwise spacing of 10 percent of the analyzed duration. -/
theorem find_best_moments_props (moments : List MomentScore) (duration : ℚ)
    (maxM : Nat) (hmax : 1 ≤ maxM) :
    (find_best_moments moments duration maxM).Sorted (· ≤ ·) ∧
    (find_best_moments moments duration maxM).length ≤ maxM ∧
    (find_best_moments moments duration maxM).Pairwise (spaced (duration * (0.1 : ℚ))) := by
  cases moments with
  | nil => simp [find_best_moments]
  | cons m ms =>
    have hperm := List.perm_insertionSort (fun a b : ℚ => a ≤ b)
      (greedyPick (duration * (0.1 : ℚ)) maxM (sortMomentsDesc (m :: ms)) [])
    refine ⟨List.sorted_insertionSort _ _, ?_, ?_⟩
    · have hlen := greedyPick_length_le (duration * (0.1 : ℚ)) maxM
        (sortMomentsDesc (m :: ms)) [] (by simpa using hmax)
      calc (find_best_moments (m :: ms) duration maxM).length
          = (greedyPick (duration * (0.1 : ℚ)) maxM (sortMomentsDesc (m :: ms)) []).length :=
            hperm.length_eq
        _ ≤ maxM := hlen
    · have hpw := greedyPick_pairwise (duration * (0.1 : ℚ)) maxM
        (sortMomentsDesc (m :: ms)) [] List.Pairwise.nil
      exact (List.Perm.pairwise_iff
        (fun hab => by simpa [spaced, abs_sub_comm] using hab) hperm).mpr hpw

/-- Claim C8.  Every best-moments list of the visual analyzer is in ascending
timestamp order, holds at most the cap (10 for analyze_clip via
find_best_moments, 5 for find_best_moments_in_duration), and keeps any two
entries at least 0.1 times the analyzed duration apart; the range variant
shifts all timestamps by start_time, preserving all three properties. -/
theorem C8_best_moments_sorted_capped_spaced :
    ∀ (moments : List MomentScore) (duration : ℚ) (maxM : Nat), 1 ≤ maxM →
      ((find_best_moments moments duration maxM).Sorted (· ≤ ·) ∧
       (find_best_moments moments duration maxM).length ≤ maxM ∧
       (find_best_moments moments duration maxM).Pairwise
         (spaced (duration * (0.1 : ℚ)))) ∧
      ∀ start_time : ℚ,
        (find_best_moments_in_duration moments start_time duration).Sorted (· ≤ ·) ∧
        (find_best_moments_in_duration moments start_time duration).length ≤ 5 ∧
        (find_best_moments_in_duration moments start_time duration).Pairwise
          (spaced (duration * (0.1 : ℚ))) := by
  intro moments duration maxM hmax
  refine ⟨find_best_moments_props moments duration maxM hmax, ?_⟩
  intro start_time
  obtain ⟨h5s, h5l, h5p⟩ := find_best_moments_props moments duration 5 (by norm_num)
  refine ⟨?_, ?_, ?_⟩
  · rw [find_best_moments_in_duration, List.Sorted, List.pairwise_map]
    exact h5s.imp (fun hab => by simpa using hab)
  · simpa [find_best_moments_in_duration] using h5l
  · rw [find_best_moments_in_duration, List.pairwise_map]
    refine h5p.imp (fun hab => ?_)
    simpa [spaced, add_sub_add_left_eq_sub] using hab

/-- Concrete moment list for the C8 witness. -/
def mC8 : List MomentScore := [⟨1, 0, 0, 0, mkRat 9 10⟩, ⟨2, 0, 0, 0, mkRat 1 2⟩]

/-- Witness for claim C8 at a concrete moment list, duration, and the cap 10
used by analyze_clip. -/
theorem C8_witness :
    1 ≤ 10 ∧ (find_best_moments mC8 10 10).length ≤ 10 :=
  ⟨by decide, (C8_best_moments_sorted_capped_spaced mC8 10 10 (by decide)).1.2.1⟩

/-- A processed count never exceeding the total gives a progress value of at
most one (with the 0/0 = 0 convention of rational division for empty jobs). -/
theorem procDiv_le_one (processed n : Nat) (h : processed ≤ n) :
    (processed : ℚ) / (n : ℚ) ≤ 1 := by
  rcases Nat.eq_zero_or_pos n with hn | hn
  · subst hn
    interval_cases processed
    simp
  · rw [div_le_one (by exact_mod_cast hn)]
    exact_mod_cast h

/-- Invariant of the batch loop of the job executor: the progress assignments stay
sorted and within the unit interval, as long as the accumulated assignments
are bounded by the current processed share. -/
theorem jobLoop_progs_inv :
    ∀ (fuel : Nat) (remaining : List ℚ) (n : Nat) (fails : List Bool)
      (cAt : Option Nat) (bIdx processed : Nat) (acc progs : List ℚ),
      processed + remaining.length ≤ n →
      (∀ x ∈ progs, 0 ≤ x ∧ x ≤ (processed : ℚ) / (n : ℚ)) →
      progs.Sorted (· ≤ ·) →
      (jobLoop fuel remaining n fails cAt bIdx processed acc progs).1.Sorted (· ≤ ·) ∧
      ∀ x ∈ (jobLoop fuel remaining n fails cAt bIdx processed acc progs).1,
        0 ≤ x ∧ x ≤ 1 := by
  intro fuel
  induction fuel with
  | zero =>
    intro remaining n fails cAt bIdx processed acc progs hlen hbnd hsort
    refine ⟨by simpa [jobLoop] using hsort, ?_⟩
    intro x hx
    rw [jobLoop] at hx
    obtain ⟨h0, hup⟩ := hbnd x hx
    exact ⟨h0, le_trans hup (procDiv_le_one processed n (by omega))⟩
  | succ f ih =>
    intro remaining n fails cAt bIdx processed acc progs hlen hbnd hsort
    cases remaining with
    | nil =>
      refine ⟨by simpa [jobLoop] using hsort, ?_⟩
      intro x hx
      rw [jobLoop] at hx
      obtain ⟨h0, hup⟩ := hbnd x hx
      exact ⟨h0, le_trans hup (procDiv_le_one processed n (by omega))⟩
    | cons r rs =>
      simp only [jobLoop]
      by_cases hcan : cancelHit cAt bIdx = true
      · rw [if_pos hcan]
        refine ⟨hsort, ?_⟩
        intro x hx
        obtain ⟨h0, hup⟩ := hbnd x hx
        exact ⟨h0, le_trans hup (procDiv_le_one processed n (by omega))⟩
      · rw [if_neg hcan]
        have hn : 0 < n := by
          have := hlen
          simp only [List.length_cons] at this
          omega
        have hp0 : (0 : ℚ) ≤ (processed : ℚ) / (n : ℚ) :=
          div_nonneg (by positivity) (by positivity)
        have hbnd2 : ∀ x ∈ progs ++ [(processed : ℚ) / (n : ℚ)],
            0 ≤ x ∧ x ≤ (processed : ℚ) / (n : ℚ) := by
          intro x hx
          rcases List.mem_append.mp hx with hx | hx
          · exact hbnd x hx
          · simp only [List.mem_singleton] at hx
            subst hx
            exact ⟨hp0, le_refl _⟩
        have hsort2 : (progs ++ [(processed : ℚ) / (n : ℚ)]).Sorted (· ≤ ·) := by
          rw [List.Sorted, List.pairwise_append]
          refine ⟨hsort, List.pairwise_singleton _ _, ?_⟩
          intro a ha b hb
          simp only [List.mem_singleton] at hb
          subst hb
          exact (hbnd a ha).2
        have hmono : ∀ (p2 : Nat), processed ≤ p2 →
            ∀ x ∈ progs ++ [(processed : ℚ) / (n : ℚ)],
              0 ≤ x ∧ x ≤ (p2 : ℚ) / (n : ℚ) := by
          intro p2 hple x hx
          obtain ⟨h0, hup⟩ := hbnd2 x hx
          refine ⟨h0, le_trans hup ?_⟩
          have hc : (processed : ℚ) ≤ (p2 : ℚ) := by exact_mod_cast hple
          exact div_le_div_of_nonneg_right hc (by positivity)
        by_cases hf : fails.getD bIdx false = true
        · rw [if_pos hf]
          refine ih ((r :: rs).drop 3) n fails cAt (bIdx + 1) processed _ _ ?_ ?_ hsort2
          · rw [List.length_drop]
            omega
          · exact hmono processed (le_refl _)
        · rw [if_neg hf]
          refine ih ((r :: rs).drop 3) n fails cAt (bIdx + 1)
            (processed + ((r :: rs).take 3).length) _ _ ?_ ?_ hsort2
          · rw [List.length_drop, List.length_take]
            omega
          · exact hmono _ (by omega)

/-- A full job run, from create_job through start_processing, parameterized by
the clock readings and the external schedule of batch failures, cancellation
and escaping exception. -/
def runJob (clips : List ℚ) (music : String) (target : Int) (ss sp jid : String)
    (t0 t1 t2 : ℚ) (fails : List Bool) (cAt : Option Nat)
    (fatal : Option (Nat × String)) : ProcessingJob × List ℚ :=
  start_processing (create_job clips music target ss sp jid t0) t1 t2 fails cAt fatal

/-- Claim C5, counterexample.  A job cancelled between batches reaches the
terminal state cancelled with completed_at still unset, so the claimed
inequality completed_at at least started_at fails for cancelled jobs. -/
theorem C5_counterexample :
    (runJob [mkRat 1 2, mkRat 1 2, mkRat 1 2, mkRat 1 2] "/m.wav" 60 "traditional"
      "romantic" "j1" 0 1 2 [] (some 1) none).1.status = .cancelled ∧
    (runJob [mkRat 1 2, mkRat 1 2, mkRat 1 2, mkRat 1 2] "/m.wav" 60 "traditional"
      "romantic" "j1" 0 1 2 [] (some 1) none).1.completed_at = none := by
  exact ⟨by with_unfolding_all decide, by with_unfolding_all decide⟩

/-- Claim C5, amended.  Over any job run the assigned progress values are
monotone non-decreasing and lie in the unit interval; a completed job has
progress one; a completed or failed job carries completion and start stamps
ordered after creation; a cancelled job, however, retains completed_at equal
to None (the executor never stamps it), which is where the original claim
fails. -/
theorem C5_progress_monotone_and_terminal_stamps :
    ∀ (clips : List ℚ) (music : String) (target : Int) (ss sp jid : String)
      (t0 t1 t2 : ℚ) (fails : List Bool) (cAt : Option Nat)
      (fatal : Option (Nat × String)),
      t0 ≤ t1 → t1 ≤ t2 →
      (runJob clips music target ss sp jid t0 t1 t2 fails cAt fatal).2.Sorted (· ≤ ·) ∧
      (∀ p ∈ (runJob clips music target ss sp jid t0 t1 t2 fails cAt fatal).2,
        0 ≤ p ∧ p ≤ 1) ∧
      ((runJob clips music target ss sp jid t0 t1 t2 fails cAt fatal).1.status = .completed →
        (runJob clips music target ss sp jid t0 t1 t2 fails cAt fatal).1.progress = 1) ∧
      (((runJob clips music target ss sp jid t0 t1 t2 fails cAt fatal).1.status = .completed ∨
        (runJob clips music target ss sp jid t0 t1 t2 fails cAt fatal).1.status = .failed) →
        (runJob clips music target ss sp jid t0 t1 t2 fails cAt fatal).1.created_at = t0 ∧
        (runJob clips music target ss sp jid t0 t1 t2 fails cAt fatal).1.started_at = some t1 ∧
        (runJob clips music target ss sp jid t0 t1 t2 fails cAt fatal).1.completed_at = some t2 ∧
        t0 ≤ t1 ∧ t1 ≤ t2) ∧
      ((runJob clips music target ss sp jid t0 t1 t2 fails cAt fatal).1.status = .cancelled →
        (runJob clips music target ss sp jid t0 t1 t2 fails cAt fatal).1.completed_at = none) := by
  intro clips music target ss sp jid t0 t1 t2 fails cAt fatal h01 h12
  obtain ⟨hs, hb⟩ := jobLoop_progs_inv clips.length clips clips.length fails cAt 0 0 [] []
    (by omega) (by simp) (by simp)
  have hzero : ∀ x ∈ (jobLoop clips.length clips clips.length fails cAt 0 0 [] []).1,
      (0 : ℚ) ≤ x := fun x hx => (hb x hx).1
  have hone : ∀ x ∈ (jobLoop clips.length clips clips.length fails cAt 0 0 [] []).1,
      x ≤ (1 : ℚ) := fun x hx => (hb x hx).2
  have hsortedTwoZeros : ∀ ks : List ℚ,
      ks.Sorted (· ≤ ·) → (∀ x ∈ ks, (0 : ℚ) ≤ x) →
      (0 :: 0 :: ks : List ℚ).Sorted (· ≤ ·) := by
    intro ks hks h0s
    rw [List.sorted_cons, List.sorted_cons]
    refine ⟨?_, h0s, hks⟩
    intro b hb2
    rcases List.mem_cons.mp hb2 with h | h
    · subst h; exact le_refl _
    · exact h0s b h
  have hmemTrace : ∀ (ks : List ℚ) (p : ℚ), p ∈ (0 :: 0 :: ks : List ℚ) →
      (∀ x ∈ ks, 0 ≤ x ∧ x ≤ 1) → 0 ≤ p ∧ p ≤ 1 := by
    intro ks p hp hks
    rcases List.mem_cons.mp hp with h | hp2
    · subst h; norm_num
    rcases List.mem_cons.mp hp2 with h | hp3
    · subst h; norm_num
    · exact hks p hp3
  rcases fatal with _ | ⟨k, msg⟩
  · by_cases hcanc : (jobLoop clips.length clips clips.length fails cAt 0 0 [] []).2.2 = true
    · have ht : (runJob clips music target ss sp jid t0 t1 t2 fails cAt none).2 =
          0 :: 0 :: (jobLoop clips.length clips clips.length fails cAt 0 0 [] []).1 := by
        simp [runJob, start_processing, create_job, hcanc]
      have hstat : (runJob clips music target ss sp jid t0 t1 t2 fails cAt none).1.status =
          .cancelled := by
        simp [runJob, start_processing, create_job, hcanc]
      have hcomp : (runJob clips music target ss sp jid t0 t1 t2 fails cAt
          none).1.completed_at = none := by
        simp [runJob, start_processing, create_job, hcanc]
      refine ⟨?_, ?_, ?_, ?_, ?_⟩
      · rw [ht]; exact hsortedTwoZeros _ hs hzero
      · rw [ht]; intro p hp; exact hmemTrace _ p hp hb
      · rw [hstat]; intro h; cases h
      · rw [hstat]; intro h; rcases h with h | h <;> cases h
      · intro _; exact hcomp
    · rw [Bool.not_eq_true] at hcanc
      have ht : (runJob clips music target ss sp jid t0 t1 t2 fails cAt none).2 =
          0 :: 0 :: ((jobLoop clips.length clips clips.length fails cAt 0 0 [] []).1 ++ [1]) := by
        simp [runJob, start_processing, create_job, hcanc]
      have hstat : (runJob clips music target ss sp jid t0 t1 t2 fails cAt none).1.status =
          .completed := by
        simp [runJob, start_processing, create_job, hcanc]
      have hprog : (runJob clips music target ss sp jid t0 t1 t2 fails cAt none).1.progress =
          1 := by
        simp [runJob, start_processing, create_job, hcanc]
      have hstamps : (runJob clips music target ss sp jid t0 t1 t2 fails cAt
            none).1.created_at = t0 ∧
          (runJob clips music target ss sp jid t0 t1 t2 fails cAt none).1.started_at = some t1 ∧
          (runJob clips music target ss sp jid t0 t1 t2 fails cAt none).1.completed_at =
            some t2 := by
        refine ⟨?_, ?_, ?_⟩ <;> simp [runJob, start_processing, create_job, hcanc]
      refine ⟨?_, ?_, ?_, ?_, ?_⟩
      · rw [ht]
        refine hsortedTwoZeros _ ?_ ?_
        · rw [List.Sorted, List.pairwise_append]
          refine ⟨hs, List.pairwise_singleton _ _, ?_⟩
          intro a ha b hb2
          simp only [List.mem_singleton] at hb2
          subst hb2
          exact hone a ha
        · intro x hx
          rcases List.mem_append.mp hx with h2 | h2
          · exact hzero x h2
          · simp only [List.mem_singleton] at h2; subst h2; norm_num
      · rw [ht]
        intro p hp
        refine hmemTrace _ p hp ?_
        intro x hx
        rcases List.mem_append.mp hx with h2 | h2
        · exact hb x h2
        · simp only [List.mem_singleton] at h2; subst h2; norm_num
      · intro _; exact hprog
      · intro _; exact ⟨hstamps.1, hstamps.2.1, hstamps.2.2, h01, h12⟩
      · rw [hstat]; intro h; cases h
  · have ht : (runJob clips music target ss sp jid t0 t1 t2 fails cAt (some (k, msg))).2 =
        0 :: 0 :: (jobLoop clips.length clips clips.length fails cAt 0 0 [] []).1.take k := by
      simp [runJob, start_processing, create_job]
    have hstat : (runJob clips music target ss sp jid t0 t1 t2 fails cAt
        (some (k, msg))).1.status = .failed := by
      simp [runJob, start_processing, create_job]
    have hstamps : (runJob clips music target ss sp jid t0 t1 t2 fails cAt
          (some (k, msg))).1.created_at = t0 ∧
        (runJob clips music target ss sp jid t0 t1 t2 fails cAt
          (some (k, msg))).1.started_at = some t1 ∧
        (runJob clips music target ss sp jid t0 t1 t2 fails cAt
          (some (k, msg))).1.completed_at = some t2 := by
      refine ⟨?_, ?_, ?_⟩ <;> simp [runJob, start_processing, create_job]
    refine ⟨?_, ?_, ?_, ?_, ?_⟩
    · rw [ht]
      refine hsortedTwoZeros _ (hs.sublist (List.take_sublist k _)) ?_
      intro x hx
      exact hzero x (List.mem_of_mem_take hx)
    · rw [ht]
      intro p hp
      refine hmemTrace _ p hp ?_
      intro x hx
      exact hb x (List.mem_of_mem_take hx)
    · rw [hstat]; intro h; cases h
    · intro _; exact ⟨hstamps.1, hstamps.2.1, hstamps.2.2, h01, h12⟩
    · rw [hstat]; intro h; cases h

instance : IsTotal ℚ (fun a b : ℚ => b ≤ a) := ⟨fun a b => le_total b a⟩

instance : IsTrans ℚ (fun a b : ℚ => b ≤ a) := ⟨fun _ _ _ h1 h2 => le_trans h2 h1⟩

/-- Taking min n length elements is taking n elements. -/
theorem take_min_length {α : Type} (l : List α) (n : Nat) :
    l.take (min n l.length) = l.take n := by
  rcases le_or_lt l.length n with h | h
  · rw [min_eq_right h, List.take_length, List.take_of_length_le h]
  · rw [min_eq_left (le_of_lt h)]

/-- Characterization of the batch loop of the selector: it returns the accumulator
extended by a prefix of the remaining scores; the early-exit test failed at
every earlier whole-batch boundary; and if the loop stopped before exhausting
the input, the stopping point is a whole-batch boundary where the early-exit
test passes. -/
theorem batchLoop_spec :
    ∀ (fuel tc : Nat) (rem acc : List ℚ), rem.length ≤ fuel →
      ∃ k, k ≤ rem.length ∧
        batchLoop tc fuel rem acc = acc ++ rem.take k ∧
        (∀ j, 0 < j → j < k → 4 ∣ j → ¬ earlyExitCond tc (acc ++ rem.take j)) ∧
        (k < rem.length → 4 ∣ k ∧ earlyExitCond tc (acc ++ rem.take k)) := by
  intro fuel
  induction fuel with
  | zero =>
    intro tc rem acc hlen
    have hnil : rem = [] := List.eq_nil_of_length_eq_zero (Nat.le_zero.mp hlen)
    subst hnil
    exact ⟨0, le_refl 0, by simp [batchLoop], fun j hj hjk _ => by omega,
      fun h => by omega⟩
  | succ f ih =>
    intro tc rem acc hlen
    cases rem with
    | nil =>
      exact ⟨0, le_refl 0, by simp [batchLoop], fun j hj hjk _ => by omega,
        fun h => by simp at h⟩
    | cons r rs =>
      by_cases hcond : earlyExitCond tc (acc ++ (r :: rs).take 4)
      · refine ⟨min 4 (r :: rs).length, min_le_right _ _, ?_, ?_, ?_⟩
        · simp only [batchLoop, if_pos hcond]
          rw [take_min_length]
        · intro j hj hjk h4
          have h1 : 4 ≤ j := Nat.le_of_dvd hj h4
          have h2 : j < 4 := lt_of_lt_of_le hjk (min_le_left _ _)
          omega
        · intro hk
          have hlen4 : 4 ≤ (r :: rs).length := by
            rcases le_or_lt (r :: rs).length 4 with h | h
            · rw [min_eq_right h] at hk; omega
            · omega
          rw [min_eq_left hlen4]
          exact ⟨dvd_refl 4, hcond⟩
      · have hlen2 : ((r :: rs).drop 4).length ≤ f := by
          rw [List.length_drop]
          simp only [List.length_cons] at hlen
          simp only [List.length_cons]
          omega
        obtain ⟨kp, hkple, heq, hno, hstop⟩ := ih tc ((r :: rs).drop 4)
          (acc ++ (r :: rs).take 4) hlen2
        rcases le_or_lt (r :: rs).length 4 with hlen4 | hlen4
        · have hkp0 : kp = 0 := by
            rw [List.length_drop] at hkple; omega
          subst hkp0
          refine ⟨(r :: rs).length, le_refl _, ?_, ?_, ?_⟩
          · simp only [batchLoop, if_neg hcond]
            rw [heq, List.take_length, List.take_of_length_le hlen4]
            simp
          · intro j hj hjk h4
            have h1 : 4 ≤ j := Nat.le_of_dvd hj h4
            omega
          · intro h; omega
        · refine ⟨4 + kp, ?_, ?_, ?_, ?_⟩
          · rw [List.length_drop] at hkple; omega
          · simp only [batchLoop, if_neg hcond]
            rw [heq, List.take_add, List.append_assoc]
          · intro j hj hjk h4
            rcases Nat.lt_or_ge j 5 with hj5 | hj5
            · have hj4 : j = 4 := by
                have := Nat.le_of_dvd hj h4; omega
              subst hj4
              exact hcond
            · have h4j2 : 4 ∣ (j - 4) := Nat.dvd_sub' h4 (dvd_refl 4)
              have hj2pos : 0 < j - 4 := by omega
              have hj2lt : j - 4 < kp := by omega
              have hthis := hno (j - 4) hj2pos hj2lt h4j2
              intro hcond2
              apply hthis
              have hsplit : acc ++ (r :: rs).take j =
                  (acc ++ (r :: rs).take 4) ++ ((r :: rs).drop 4).take (j - 4) := by
                rw [List.append_assoc, ← List.take_add,
                  Nat.add_sub_cancel' (by omega : 4 ≤ j)]
              rwa [hsplit] at hcond2
          · intro hk
            have hkplt : kp < ((r :: rs).drop 4).length := by
              rw [List.length_drop]; omega
            obtain ⟨hdvd, hc⟩ := hstop hkplt
            refine ⟨Nat.dvd_add (dvd_refl 4) hdvd, ?_⟩
            have hsplit : acc ++ (r :: rs).take (4 + kp) =
                (acc ++ (r :: rs).take 4) ++ ((r :: rs).drop 4).take kp := by
              rw [List.append_assoc, ← List.take_add]
            rwa [hsplit]

/-- The batch loop of the background executor, with no batch failures and no
cancellation, analyzes every clip and never observes the cancel flag. -/
theorem jobLoop_all :
    ∀ (fuel : Nat) (rem : List ℚ) (n bIdx processed : Nat) (acc progs : List ℚ),
      rem.length ≤ 3 * fuel →
      (jobLoop fuel rem n [] none bIdx processed acc progs).2.1 = acc ++ rem ∧
      (jobLoop fuel rem n [] none bIdx processed acc progs).2.2 = false := by
  intro fuel
  induction fuel with
  | zero =>
    intro rem n bIdx processed acc progs hlen
    have hnil : rem = [] := List.eq_nil_of_length_eq_zero (by omega)
    subst hnil
    simp [jobLoop]
  | succ f ih =>
    intro rem n bIdx processed acc progs hlen
    cases rem with
    | nil => simp [jobLoop]
    | cons r rs =>
      simp only [jobLoop, cancelHit, Bool.false_eq_true, if_false, List.getD_nil]
      obtain ⟨h1, h2⟩ := ih ((r :: rs).drop 3) n (bIdx + 1)
        (processed + ((r :: rs).take 3).length) (acc ++ (r :: rs).take 3)
        (progs ++ [(processed : ℚ) / (n : ℚ)])
        (by rw [List.length_drop]; simp only [List.length_cons] at hlen ⊢; omega)
      rw [h1, List.append_assoc, List.take_append_drop]
      exact ⟨rfl, h2⟩

/-- Claim C4, counterexample.  A background run of 13 clips with selection
count 5 (duration 15, so min(13, max(5, 15 div 3)) = 5): after the fourth
batch 12 clips are analyzed, at least 10 of them scoring above 0.6, so the
claimed early exit would skip the fifth batch; the executor still analyzes
clip 13, whose score 0.99 then tops the returned list. -/
theorem C4_counterexample :
    earlyExitCond 5 ((List.replicate 12 (mkRat 7 10) ++ [mkRat 99 100]).take 12) ∧
    (min ((13 : Int)) (max 5 (Int.fdiv 15 3))).toNat = 5 ∧
    (jobLoop 13 (List.replicate 12 (mkRat 7 10) ++ [mkRat 99 100]) 13 [] none 0 0
      [] []).2.1 = List.replicate 12 (mkRat 7 10) ++ [mkRat 99 100] ∧
    (runJob (List.replicate 12 (mkRat 7 10) ++ [mkRat 99 100]) "/m.wav" 15
      "traditional" "romantic" "j2" 0 1 2 [] none none).1.results =
      some [mkRat 99 100, mkRat 7 10, mkRat 7 10, mkRat 7 10, mkRat 7 10] := by
  refine ⟨?_, ?_, ?_, ?_⟩ <;> with_unfolding_all decide

/-- Claim C4, amended.  The batch mode of the selector itself analyzes a prefix of
the clips in whole batches of 4, skipping the remaining batches exactly when,
at a batch boundary, at least 2N clips are analyzed and at least N of them
score strictly above 0.6, and returns the top N of the analyzed prefix in
descending score order.  The background-job executor is a separate path: it
analyzes clips in batches of 3 with no early exit whatsoever (absent
cancellation and failures it analyzes every clip), and selects the top
min(len, max(5, duration div 3)) results. -/
theorem C4_selector_early_exit_job_no_early_exit :
    (∀ (tc : Nat) (scores : List ℚ),
      batchLoop tc scores.length scores [] =
        scores.take (batchLoop tc scores.length scores []).length ∧
      (∀ j, 0 < j → j < (batchLoop tc scores.length scores []).length → 4 ∣ j →
        ¬ earlyExitCond tc (scores.take j)) ∧
      ((batchLoop tc scores.length scores []).length < scores.length →
        4 ∣ (batchLoop tc scores.length scores []).length ∧
        earlyExitCond tc (batchLoop tc scores.length scores [])) ∧
      select_best_clips_batch tc scores =
        (sortScoresDesc (batchLoop tc scores.length scores [])).take tc ∧
      (select_best_clips_batch tc scores).Sorted (fun a b => b ≤ a)) ∧
    (∀ (clips : List ℚ) (music : String) (target : Int) (ss sp jid : String)
      (t0 t1 t2 : ℚ),
      (jobLoop clips.length clips clips.length [] none 0 0 [] []).2.1 = clips ∧
      (runJob clips music target ss sp jid t0 t1 t2 [] none none).1.results =
        (if clips.isEmpty then none else some (jobTopSelect clips target))) := by
  constructor
  · intro tc scores
    obtain ⟨k, hkle, heq, hno, hstop⟩ :=
      batchLoop_spec scores.length tc scores [] (le_refl _)
    rw [List.nil_append] at heq
    have hklen : (batchLoop tc scores.length scores []).length = k := by
      rw [heq, List.length_take, min_eq_left hkle]
    refine ⟨?_, ?_, ?_, rfl, ?_⟩
    · rw [hklen, heq]
    · intro j hj hjk h4
      rw [hklen] at hjk
      have := hno j hj hjk h4
      rwa [List.nil_append] at this
    · intro hlt
      rw [hklen] at hlt ⊢
      obtain ⟨hdvd, hc⟩ := hstop hlt
      rw [List.nil_append] at hc
      exact ⟨hdvd, heq ▸ hc⟩
    · have hsorted := List.sorted_insertionSort (fun a b : ℚ => b ≤ a)
        (batchLoop tc scores.length scores [])
      exact hsorted.sublist (List.take_sublist tc _)
  · intro clips music target ss sp jid t0 t1 t2
    obtain ⟨h1, h2⟩ := jobLoop_all clips.length clips clips.length 0 0 [] []
      (by omega)
    rw [List.nil_append] at h1
    refine ⟨h1, ?_⟩
    simp only [runJob, start_processing, create_job, h1, h2, Bool.false_eq_true,
      if_false]

/-- Concrete scores for the C4 witness: one batch of four scores above 0.6
with a fifth clip waiting, target count 2. -/
def scoresW : List ℚ := [mkRat 7 10, mkRat 7 10, mkRat 7 10, mkRat 7 10, mkRat 1 2]

/-- Witness for claim C4: on the concrete scores the selector loop stops at
the whole-batch boundary 4, where the early-exit condition holds. -/
theorem C4_witness :
    (batchLoop 2 scoresW.length scoresW []).length < scoresW.length ∧
    4 ∣ (batchLoop 2 scoresW.length scoresW []).length ∧
    earlyExitCond 2 (batchLoop 2 scoresW.length scoresW []) :=
  ⟨by with_unfolding_all decide,
   ((C4_selector_early_exit_job_no_early_exit.1 2 scoresW).2.2.1
     (by with_unfolding_all decide)).1,
   ((C4_selector_early_exit_job_no_early_exit.1 2 scoresW).2.2.1
     (by with_unfolding_all decide)).2⟩

/-- Witness for claim C5 on a concrete one-clip run. -/
theorem C5_witness :
    ((0 : ℚ) ≤ 1) ∧ ((1 : ℚ) ≤ 2) ∧
    (runJob [mkRat 1 2] "/m.wav" 60 "traditional" "romantic" "j0" 0 1 2 [] none
      none).2.Sorted (· ≤ ·) :=
  ⟨by decide, by decide,
   (C5_progress_monotone_and_terminal_stamps [mkRat 1 2] "/m.wav" 60 "traditional"
     "romantic" "j0" 0 1 2 [] none none (by decide) (by decide)).1⟩
